import Mathlib

/-!
Formal model of the multi-region endpoint routing sample for Aurora DSQL.

The repository contains two connection managers:
* `DSQLConnectionManager` (src/dsql_connection_manager.py), called the *plain*
  manager below, and
* `DSQLHybridConnectionManager` (src/hybrid_failover_approach.py), called the
  *hybrid* manager below.

The model is a shallow embedding: network effects (TCP probes, the Route 53
health-check call, token minting, `psycopg2.connect`) are supplied by an
explicit deterministic environment record, Python floats are modelled as
`WithTop ℚ` (with `⊤` for `float('inf')`), Python dicts with string keys are
modelled as association lists in insertion order, and Python's stable `sorted`
/ `list.sort` are modelled by Mathlib's stable `List.insertionSort`.
-/

namespace DSQL

/-- Latency value of a Python float variable: a finite rational or `float('inf')`. -/
abbrev Lat : Type := WithTop ℚ

/-- Value stored in a psycopg2 connection-parameter dict. -/
inductive PVal where
  | str (s : String)
  | int (n : Int)
deriving DecidableEq

/-- Association-list lookup, modelling Python `d[k]` / `d.get(k)` for a dict
with string keys (keys are unique in a Python dict, so first match is the value). -/
def aget {β : Type} (d : List (String × β)) (k : String) : Option β :=
  match d with
  | [] => none
  | (k', v) :: rest => if k' == k then some v else aget rest k

/-- Association-list assignment, modelling Python `d[k] = v`: an existing key
keeps its position and gets the new value, a new key is appended. -/
def aset {β : Type} (d : List (String × β)) (k : String) (v : β) : List (String × β) :=
  match d with
  | [] => [(k, v)]
  | (k', v') :: rest => if k' == k then (k, v) :: rest else (k', v') :: aset rest k v

/-- Python dict with string keys: association list in insertion order. -/
abbrev Dict : Type := List (String × PVal)

/-- Keys of an association list are pairwise distinct (always true of a Python dict). -/
def keysNodup {β : Type} (d : List (String × β)) : Prop := (d.map Prod.fst).Nodup

instance {β : Type} (d : List (String × β)) : Decidable (keysNodup d) :=
  List.nodupDecidable (d.map Prod.fst)

/-- Python dict-literal unpacking `{**d, **s}`: the entries of `s` are assigned
over `d` in order, so a key of `s` overrides a key of `d` of the same name. -/
def dmerge (d s : Dict) : Dict := s.foldl (fun acc kv => aset acc kv.1 kv.2) d

/-- One endpoint dictionary from the configuration.  `port`, `priority`,
`health_check_id`, `latency` and `is_healthy` model Python dict keys that may
be absent (`none` = key absent). -/
structure Endpoint where
  hostname : String
  port : Option Nat := none
  region : String := ""
  cluster_id : String := ""
  priority : Option Int := none
  health_check_id : Option String := none
  latency : Option Lat := none
  is_healthy : Option Bool := none
deriving DecidableEq

/-- Port lookup `endpoint.get("port", 5432)` used by the plain manager (the
hybrid manager indexes `endpoint['port']` directly; its model reads the same
field, which every hybrid configuration populates). -/
def portOf (e : Endpoint) : Nat := e.port.getD 5432

/-- Latency sort key of the plain manager: `e.get("latency", float('inf'))`. -/
def plainKey (e : Endpoint) : Lat := e.latency.getD ⊤

/-- Sort key of the hybrid manager: `(x['latency'], x.get('priority', 999))`.
At every call site the code has just written `x['latency']`, so the key is
present; an absent key is read as `⊤` for totality of the model. -/
def hybridKey (e : Endpoint) : Lat × Int := (e.latency.getD ⊤, e.priority.getD 999)

/-- Comparison used by the plain manager's `sorted(healthy, key=latency)`:
Python's stable sort orders by non-strict key comparison. -/
def plainRel (a b : Endpoint) : Prop := plainKey a ≤ plainKey b

/-- Comparison used by the hybrid manager's
`sort(key=lambda x: (x['latency'], x.get('priority', 999)))`:
lexicographic comparison of Python tuples. -/
def hybridRel (a b : Endpoint) : Prop :=
  (hybridKey a).1 < (hybridKey b).1 ∨
    ((hybridKey a).1 = (hybridKey b).1 ∧ (hybridKey a).2 ≤ (hybridKey b).2)

instance : DecidableRel plainRel := fun a b =>
  inferInstanceAs (Decidable (plainKey a ≤ plainKey b))

instance : DecidableRel hybridRel := fun a b =>
  inferInstanceAs (Decidable (_ ∨ _))

instance : IsTotal Endpoint plainRel :=
  ⟨fun a b => le_total (plainKey a) (plainKey b)⟩

instance : IsTrans Endpoint plainRel :=
  ⟨fun _ _ _ hab hbc => le_trans hab hbc⟩

instance : IsTotal Endpoint hybridRel := by
  constructor
  intro a b
  rcases lt_trichotomy (hybridKey a).1 (hybridKey b).1 with h | h | h
  · exact Or.inl (Or.inl h)
  · rcases le_total (hybridKey a).2 (hybridKey b).2 with h2 | h2
    · exact Or.inl (Or.inr ⟨h, h2⟩)
    · exact Or.inr (Or.inr ⟨h.symm, h2⟩)
  · exact Or.inr (Or.inl h)

instance : IsTrans Endpoint hybridRel := by
  constructor
  intro a b c hab hbc
  rcases hab with hab | ⟨hab, hab2⟩
  · rcases hbc with hbc | ⟨hbc, _⟩
    · exact Or.inl (lt_trans hab hbc)
    · exact Or.inl (hbc ▸ hab)
  · rcases hbc with hbc | ⟨hbc, hbc2⟩
    · exact Or.inl (hab ▸ hbc)
    · exact Or.inr ⟨hab.trans hbc, le_trans hab2 hbc2⟩

/-- Python's `sorted` is a stable sort; so is `List.insertionSort` with a
non-strict total transitive comparison, and a stable sort by a given key is
unique, so the model sorts with `List.insertionSort`. -/
def pySorted (r : Endpoint → Endpoint → Prop) [DecidableRel r] (l : List Endpoint) :
    List Endpoint :=
  List.insertionSort r l

/-!
Model of `DSQLConnectionManager` (src/dsql_connection_manager.py).
-/

/-- Deterministic environment supplying the network effects of the plain
manager.  `attempt host port i` is the outcome of the i-th TCP connect of the
process to `host:port` (`some t` = connected after `t` ms, `none` = DNS
failure, timeout, refusal or any other exception); the plain manager performs
a single connect per endpoint, modelled as attempt index 0.  `mint h r` is
`_generate_auth_token` (which re-raises any error), `connectRes p` is
`psycopg2.connect(**p)` (`none` = success, `some m` = exception with message
`m`). -/
structure PlainEnv where
  attempt : String → Nat → Nat → Option ℚ
  mint : String → String → Except String String
  connectRes : Dict → Option String

/-- Model of `DSQLConnectionManager._measure_endpoint`: a single TCP connect;
on success returns the elapsed time and `True`, on any expected network
failure (DNS, timeout, refused) or unexpected error returns
`(float('inf'), False)` without raising. -/
def measureEndpoint (env : PlainEnv) (hostname : String) (port : Nat) : Lat × Bool :=
  match env.attempt hostname port 0 with
  | some t => ((t : ℚ), true)
  | none => (⊤, false)

/-- Model of `DSQLConnectionManager._check_endpoints`: writes `latency` and
`is_healthy` on every endpoint of the active set, leaving every other key
unchanged. -/
def checkEndpoints (env : PlainEnv) (eps : List Endpoint) : List Endpoint :=
  eps.map (fun e =>
    let m := measureEndpoint env e.hostname (portOf e)
    { e with latency := some m.1, is_healthy := some m.2 })

/-- Connection parameters built by the plain manager: a dict literal with
`sslmode = 'require'`, then config `connection_settings` entries added only
when the key is not already present (and never `connect_timeout`), so the
router-computed core parameters always win. -/
def plainConnParams (settings : Dict) (connect_timeout : Int) (database user : String)
    (e : Endpoint) (token : String) : Dict :=
  let base : Dict :=
    [("host", .str e.hostname), ("port", .int (portOf e)),
     ("database", .str database), ("user", .str user),
     ("password", .str token), ("connect_timeout", .int connect_timeout),
     ("sslmode", .str "require")]
  settings.foldl
    (fun acc kv =>
      if (aget acc kv.1).isSome || kv.1 == "connect_timeout" then acc
      else aset acc kv.1 kv.2)
    base

/-- Failure message raised by the plain manager when every attempt failed:
only `last_exception` survives. -/
def plainFailMsg (lastE : Option String) : String :=
  "Failed to connect to any endpoint" ++
    (match lastE with
     | none => ""
     | some m => ": " ++ m)

/-- Connection-attempt loop of `DSQLConnectionManager.get_connection`:
mint a token and connect for each endpoint in order, returning the first
success; on failure only `last_exception` is kept.  Also returns the list of
parameter dicts actually passed to `psycopg2.connect`, in order. -/
def plainTry (env : PlainEnv) (settings : Dict) (connect_timeout : Int)
    (database user : String) :
    List Endpoint → Option String → Except String Dict × List Dict
  | [], lastE => (.error (plainFailMsg lastE), [])
  | e :: rest, lastE =>
    match env.mint e.hostname e.region with
    | .error m => plainTry env settings connect_timeout database user rest (some m)
    | .ok token =>
      let params := plainConnParams settings connect_timeout database user e token
      match env.connectRes params with
      | none => (.ok params, [params])
      | some m =>
        let r := plainTry env settings connect_timeout database user rest (some m)
        (r.1, params :: r.2)

/-- Healthy subset selected by the plain manager after the probe pass. -/
def plainHealthy (env : PlainEnv) (eps : List Endpoint) : List Endpoint :=
  (checkEndpoints env eps).filter (fun e => e.is_healthy.getD false)

/-- Candidate list actually iterated by the plain manager: the healthy
endpoints sorted by latency alone when any endpoint is healthy, otherwise the
full (unsorted) endpoint list. -/
def plainTarget (env : PlainEnv) (eps : List Endpoint) : List Endpoint :=
  if (plainHealthy env eps).isEmpty then checkEndpoints env eps
  else pySorted plainRel (plainHealthy env eps)

deriving instance DecidableEq for Except

/-- Result of `DSQLConnectionManager.get_connection`: the outcome (parameters
of the successful `psycopg2.connect`, or the final error message), the
post-call state of `self.endpoints` (mutated in place by `_check_endpoints`),
and the parameter dicts of every connection attempt in order. -/
structure PlainOut where
  result : Except String Dict
  endpoints : List Endpoint
  attempts : List Dict
deriving DecidableEq

/-- Model of `DSQLConnectionManager.get_connection`. -/
def plainGetConnection (env : PlainEnv) (settings : Dict) (connect_timeout : Int)
    (eps : List Endpoint) (database user : String) : PlainOut :=
  let r := plainTry env settings connect_timeout database user (plainTarget env eps) none
  { result := r.1, endpoints := checkEndpoints env eps, attempts := r.2 }

/-!
Model of `DSQLHybridConnectionManager` (src/hybrid_failover_approach.py).
-/

/-- The Route 53 health-check cache `self.health_check_cache`:
health-check id to `(cached_result, timestamp)`. -/
abbrev Cache : Type := List (String × (Bool × ℚ))

/-- Deterministic environment supplying the network effects of the hybrid
manager.  `attempt host port i` is the outcome of the i-th latency-test TCP
connect to `host:port` within one `measure_latency` call; `direct host port`
is the outcome of the separate `check_direct_health` connect; `route53 id` is
`get_health_check_status` (`none` = the call raised, `some l` = the list of
observation status strings); `mint h r` is the boto3 token-minting call;
`connectRes p` is `psycopg2.connect(**p)` (`none` = success). -/
structure HybridEnv where
  attempt : String → Nat → Nat → Option ℚ
  direct : String → Nat → Bool
  route53 : String → Option (List String)
  mint : String → String → Except String String
  connectRes : Dict → Option String

/-- Configuration state of a `DSQLHybridConnectionManager` instance. -/
structure HybridCfg where
  settings : Dict
  retries : Nat := 3
  ttl : ℚ := 60
  dsql_available : Bool := true

/-- Default `connection_settings` installed by `__init__` when endpoints are
passed directly (no config file); note that it contains no `sslmode` key. -/
def defaultHybridSettings : Dict :=
  [("connect_timeout", .int 5), ("application_name", .str "dsql-hybrid-router"),
   ("keepalives", .int 1), ("keepalives_idle", .int 30),
   ("keepalives_interval", .int 10), ("keepalives_count", .int 3)]

/-- Observation filter of `check_route53_health`:
`status.lower().startswith('success')` (modelled on the character list of the
string, since the model never leaves the pure fragment). -/
def statusIsSuccess (status : String) : Bool :=
  List.isPrefixOf "success".data (status.data.map Char.toLower)

/-- Model of `DSQLHybridConnectionManager.check_route53_health`: a cached
entry younger than the TTL is returned as is; otherwise the external call is
made.  A raised error yields `False` and writes nothing.  An empty observation
list yields `False` via the early return and also writes nothing.  Otherwise
the endpoint is healthy iff at least one observation status starts with
"success" (case-insensitive), and that boolean is cached with the current
timestamp. -/
def checkRoute53Health (env : HybridEnv) (ttl now : ℚ) (cache : Cache)
    (health_check_id : String) : Bool × Cache :=
  let stale :=
    match env.route53 health_check_id with
    | none => (false, cache)
    | some observations =>
      if observations.isEmpty then (false, cache)
      else
        let success_count := (observations.filter statusIsSuccess).length
        let is_healthy := decide (0 < success_count)
        (is_healthy, aset cache health_check_id (is_healthy, now))
  match aget cache health_check_id with
  | some (cached_result, timestamp) =>
    if now - timestamp < ttl then (cached_result, cache) else stale
  | none => stale

/-- Model of `DSQLHybridConnectionManager.check_direct_health`: one TCP
connect, healthy iff it succeeds, any exception caught. -/
def checkDirectHealth (env : HybridEnv) (e : Endpoint) : Bool :=
  env.direct e.hostname (portOf e)

/-- Model of `DSQLHybridConnectionManager.is_endpoint_healthy`: Route 53 when
the endpoint carries a truthy `health_check_id` (a non-empty string),
otherwise the direct TCP check. -/
def isEndpointHealthy (env : HybridEnv) (ttl now : ℚ) (cache : Cache)
    (e : Endpoint) : Bool × Cache :=
  match e.health_check_id with
  | some id => if id == "" then (checkDirectHealth env e, cache)
               else checkRoute53Health env ttl now cache id
  | none => (checkDirectHealth env e, cache)

/-- Health pass of `get_healthy_endpoints`: evaluate `is_endpoint_healthy` on
each endpoint in order, threading the shared health-check cache, and record
the per-endpoint boolean (the recorded flag is what decides both membership in
the healthy list and which aliased endpoint dicts are later mutated). -/
def healthFlags (env : HybridEnv) (ttl now : ℚ) :
    Cache → List Endpoint → List (Endpoint × Bool) × Cache
  | cache, [] => ([], cache)
  | cache, e :: rest =>
    let h := isEndpointHealthy env ttl now cache e
    let t := healthFlags env ttl now h.2 rest
    ((e, h.1) :: t.1, t.2)

/-- Model of `DSQLHybridConnectionManager.get_healthy_endpoints`. -/
def getHealthyEndpoints (env : HybridEnv) (ttl now : ℚ) (cache : Cache)
    (eps : List Endpoint) : List Endpoint :=
  (((healthFlags env ttl now cache eps).1).filter (fun p => p.2)).map Prod.fst

/-- Latencies of the successful attempts collected by the retry loop of
`measure_latency`, in attempt order. -/
def latTrials (env : HybridEnv) (hostname : String) (port retries : Nat) : List ℚ :=
  (List.range retries).filterMap (env.attempt hostname port)

/-- Model of `DSQLHybridConnectionManager.measure_latency`: up to `retries`
independent TCP connects; the arithmetic mean of the successful attempts if
any succeeded, `float('inf')` otherwise; exceptions of individual attempts are
swallowed. -/
def measureLatency (env : HybridEnv) (retries : Nat) (e : Endpoint) : Lat :=
  let latencies := latTrials env e.hostname (portOf e) retries
  if latencies.isEmpty then ⊤
  else ((latencies.sum / latencies.length : ℚ) : Lat)

/-- Hostname constructed by `generate_auth_token` from the cluster id and
region. -/
def canonicalHost (cluster_id region : String) : String :=
  cluster_id ++ ".dsql." ++ region ++ ".on.aws"

/-- Model of `DSQLHybridConnectionManager.generate_auth_token`: mints via the
DSQL client when available (errors re-raised), otherwise returns the simulated
test token. -/
def generateAuthToken (env : HybridEnv) (dsql_available : Bool)
    (cluster_id region : String) : Except String String :=
  if dsql_available then env.mint (canonicalHost cluster_id region) region
  else .ok ("test-auth-token-" ++ cluster_id ++ "-" ++ region)

/-- Connection parameters built by the hybrid manager:
`{'host': ..., 'port': ..., 'database': ..., 'user': ..., 'password': token,
**self.connection_settings}` — a `connection_settings` key overrides a core
key of the same name. -/
def hybridConnParams (settings : Dict) (database user : String)
    (e : Endpoint) (token : String) : Dict :=
  dmerge
    [("host", .str e.hostname), ("port", .int (portOf e)),
     ("database", .str database), ("user", .str user), ("password", .str token)]
    settings

/-- Failure of `DSQLHybridConnectionManager.get_connection`: either the early
`"No healthy DSQL endpoints available"` exception, or the aggregate
`"Failed to connect to any DSQL endpoint"` exception carrying one message per
attempted endpoint, in attempt order. -/
inductive HybridErr where
  | noHealthy
  | allFailed (errors : List String)
deriving DecidableEq

/-- Error message recorded for one failed endpoint attempt. -/
def hybridFailMsg (hostname cause : String) : String :=
  "Failed to connect to " ++ hostname ++ ": " ++ cause

/-- Connection-attempt loop of `DSQLHybridConnectionManager.get_connection`:
per endpoint, mint a fresh token (a minting error is caught like a connection
error), build the parameters, connect; the first success is returned, every
failure appends one message to `errors`.  Also returns the parameter dicts
actually passed to `psycopg2.connect`, in order. -/
def hybridTry (env : HybridEnv) (cfg : HybridCfg) (database user : String) :
    List Endpoint → Except (List String) Dict × List Dict
  | [] => (.error [], [])
  | e :: rest =>
    match generateAuthToken env cfg.dsql_available e.cluster_id e.region with
    | .error m =>
      let r := hybridTry env cfg database user rest
      (match r.1 with
       | .ok p => .ok p
       | .error errs => .error (hybridFailMsg e.hostname m :: errs), r.2)
    | .ok token =>
      let params := hybridConnParams cfg.settings database user e token
      match env.connectRes params with
      | none => (.ok params, [params])
      | some m =>
        let r := hybridTry env cfg database user rest
        (match r.1 with
         | .ok p => .ok p
         | .error errs => .error (hybridFailMsg e.hostname m :: errs),
         params :: r.2)

/-- Healthy endpoints with the fresh multi-retry average written into their
`latency` key (the mutation `endpoint['latency'] = self.measure_latency(...)`
applied to each member of the healthy list). -/
def hybridMeasured (env : HybridEnv) (cfg : HybridCfg) (healthy : List Endpoint) :
    List Endpoint :=
  healthy.map (fun e => { e with latency := some (measureLatency env cfg.retries e) })

/-- Ranked candidate list of the hybrid manager: the measured healthy
endpoints sorted by `(latency, priority)`. -/
def hybridRanked (env : HybridEnv) (cfg : HybridCfg) (healthy : List Endpoint) :
    List Endpoint :=
  pySorted hybridRel (hybridMeasured env cfg healthy)

/-- Result of `DSQLHybridConnectionManager.get_connection`: the outcome, the
post-call state of `self.endpoints` (the healthy members are aliased by the
healthy list, so only they receive a fresh `latency`; no `is_healthy` key is
ever written), the post-call health-check cache, and the parameter dicts of
every connection attempt in order. -/
structure HybridOut where
  result : Except HybridErr Dict
  endpoints : List Endpoint
  cache : Cache
  attempts : List Dict
deriving DecidableEq

/-- Model of `DSQLHybridConnectionManager.get_connection`: health pass first;
if nothing is healthy the call raises immediately; otherwise the healthy
endpoints are measured (multi-retry average), ranked by
`(latency, priority.getD 999)` and attempted in order. -/
def hybridGetConnection (env : HybridEnv) (cfg : HybridCfg) (cache : Cache)
    (now : ℚ) (eps : List Endpoint) (database user : String) : HybridOut :=
  let flags := healthFlags env cfg.ttl now cache eps
  let healthy := (flags.1.filter (fun p => p.2)).map Prod.fst
  if healthy.isEmpty then
    { result := .error .noHealthy, endpoints := eps, cache := flags.2, attempts := [] }
  else
    let r := hybridTry env cfg database user (hybridRanked env cfg healthy)
    { result :=
        match r.1 with
        | .ok p => .ok p
        | .error errs => .error (.allFailed errs),
      endpoints := flags.1.map (fun p =>
        if p.2 then { p.1 with latency := some (measureLatency env cfg.retries p.1) }
        else p.1),
      cache := flags.2,
      attempts := r.2 }

/-!
Derived observations used to state the claims.
-/

/-- Left-biased choice on optional strings (Python's
`x = new if failed else x` update pattern for `last_exception`). -/
def orElseO (a b : Option String) : Option String :=
  match a with
  | some x => some x
  | none => b

/-- Reason the plain manager's attempt at one endpoint fails
(`none` = the attempt would succeed): the token-minting error if minting
raises, otherwise the `psycopg2.connect` error. -/
def plainFailReason (env : PlainEnv) (settings : Dict) (connect_timeout : Int)
    (database user : String) (e : Endpoint) : Option String :=
  match env.mint e.hostname e.region with
  | .error m => some m
  | .ok token => env.connectRes (plainConnParams settings connect_timeout database user e token)

/-- Value of `last_exception` after the plain manager's loop has failed over
a list of endpoints, starting from a previous value. -/
def lastReason (f : Endpoint → Option String) : List Endpoint → Option String → Option String
  | [], lastE => lastE
  | e :: rest, lastE => lastReason f rest (orElseO (f e) lastE)

/-- Reason the hybrid manager's attempt at one endpoint fails
(`none` = the attempt would succeed). -/
def hybridFailReason (env : HybridEnv) (cfg : HybridCfg) (database user : String)
    (e : Endpoint) : Option String :=
  match generateAuthToken env cfg.dsql_available e.cluster_id e.region with
  | .error m => some m
  | .ok token => env.connectRes (hybridConnParams cfg.settings database user e token)

/-- Token actually minted for an endpoint by the hybrid manager, when minting
succeeds. -/
def tokenOf (env : HybridEnv) (available : Bool) (e : Endpoint) : String :=
  match generateAuthToken env available e.cluster_id e.region with
  | .ok t => t
  | .error _ => ""

/-- Token actually minted for an endpoint by the plain manager, when minting
succeeds. -/
def plainTokenOf (env : PlainEnv) (e : Endpoint) : String :=
  match env.mint e.hostname e.region with
  | .ok t => t
  | .error _ => ""

/-!
Concrete fixtures used by witnesses and counterexamples.
-/

/-- Endpoint `a`, declared priority 2. -/
def epA : Endpoint :=
  { hostname := "a", port := some 5432, region := "use1", cluster_id := "ca",
    priority := some 2 }

/-- Endpoint `b`, declared priority 1. -/
def epB : Endpoint :=
  { hostname := "b", port := some 5432, region := "usw2", cluster_id := "cb",
    priority := some 1 }

/-- Hybrid endpoint checked by direct TCP (no Route 53 health check). -/
def epD : Endpoint :=
  { hostname := "d", port := some 5432, region := "use1", cluster_id := "cd" }

/-- Hybrid endpoint carrying a Route 53 health-check id. -/
def epH : Endpoint :=
  { hostname := "h", port := some 5432, region := "use1", cluster_id := "ch",
    health_check_id := some "hc-1" }

/-- Hybrid endpoint with a stale latency left over from an earlier call and no
`is_healthy` key (the hybrid manager never writes one). -/
def epStale : Endpoint :=
  { hostname := "x", port := some 5432, region := "usw2", cluster_id := "cx",
    latency := some ((42 : ℚ) : Lat) }

/-- Plain environment: every probe answers in 10 ms, minting and connecting
succeed. -/
def pEnvTie : PlainEnv :=
  { attempt := fun _ _ _ => some 10,
    mint := fun _ _ => .ok "tok",
    connectRes := fun _ => none }

/-- Connect outcome refusing every attempt with a host-specific message. -/
def refuseConn : Dict → Option String := fun p =>
  match aget p "host" with
  | some (.str h) => some ("refused-" ++ h)
  | _ => some "refused"

/-- Plain environment: probes answer in 10 ms but every `psycopg2.connect` is
refused. -/
def pEnvRefuse : PlainEnv :=
  { attempt := fun _ _ _ => some 10,
    mint := fun _ _ => .ok "tok",
    connectRes := refuseConn }

/-- Plain environment: host `a` answers its first probe in 10 ms but repeat
probes in 1000 ms, host `b` answers every probe in 20 ms; connects succeed. -/
def pEnvSkew : PlainEnv :=
  { attempt := fun h _ i =>
      if h == "a" then (if i == 0 then some 10 else some 1000) else some 20,
    mint := fun _ _ => .ok "tok",
    connectRes := fun _ => none }

/-- Plain environment: every probe fails (port filtered for probes), yet
`psycopg2.connect` itself succeeds — a health-check false negative. -/
def pEnvProbeDown : PlainEnv :=
  { attempt := fun _ _ _ => none,
    mint := fun _ _ => .ok "tok",
    connectRes := fun _ => none }

/-- Hybrid environment: everything up (Route 53 reports a successful
observation, direct checks, probes, minting and connects succeed). -/
def hEnvUp : HybridEnv :=
  { attempt := fun _ _ _ => some 10,
    direct := fun _ _ => true,
    route53 := fun _ => some ["Success: HTTP Status Code 200"],
    mint := fun _ _ => .ok "tok",
    connectRes := fun _ => none }

/-- Hybrid environment: Route 53 reports only failing observations while the
TCP ports are actually open (direct checks, probes and connects succeed). -/
def hEnvR53Down : HybridEnv :=
  { attempt := fun _ _ _ => some 10,
    direct := fun _ _ => true,
    route53 := fun _ => some ["Failure: Connection refused"],
    mint := fun _ _ => .ok "tok",
    connectRes := fun _ => none }

/-- Hybrid environment: everything reachable but every `psycopg2.connect`
refused. -/
def hEnvRefuse : HybridEnv :=
  { attempt := fun _ _ _ => some 10,
    direct := fun _ _ => true,
    route53 := fun _ => some ["Success: HTTP Status Code 200"],
    mint := fun _ _ => .ok "tok",
    connectRes := refuseConn }

/-- Hybrid environment: only host `d` is reachable (probes and direct checks
to any other host fail); minting and connects succeed. -/
def hEnvPart : HybridEnv :=
  { attempt := fun h _ _ => if h == "d" then some 10 else none,
    direct := fun h _ => h == "d",
    route53 := fun _ => some ["Success: HTTP Status Code 200"],
    mint := fun _ _ => .ok "tok",
    connectRes := fun _ => none }

/-- Hybrid environment over the same skewed network as `pEnvSkew`: host `a`
answers its first probe in 10 ms and repeat probes in 1000 ms, host `b`
answers every probe in 20 ms. -/
def hEnvSkew : HybridEnv :=
  { attempt := fun h _ i =>
      if h == "a" then (if i == 0 then some 10 else some 1000) else some 20,
    direct := fun _ _ => true,
    route53 := fun _ => some ["Success: HTTP Status Code 200"],
    mint := fun _ _ => .ok "tok",
    connectRes := fun _ => none }

/-- Hybrid environment whose Route 53 call returns an empty observation
list. -/
def hEnvEmptyObs : HybridEnv :=
  { attempt := fun _ _ _ => some 10,
    direct := fun _ _ => true,
    route53 := fun _ => some [],
    mint := fun _ _ => .ok "tok",
    connectRes := fun _ => none }

/-- Hybrid configuration with the default connection settings. -/
def cfgD : HybridCfg := { settings := defaultHybridSettings }

/-- Endpoint declaring priority 1000, measured latency 10. -/
def epP1000 : Endpoint :=
  { hostname := "a", latency := some ((10 : ℚ) : Lat), priority := some 1000 }

/-- Endpoint declaring no priority, measured latency 10. -/
def epPNone : Endpoint :=
  { hostname := "b", latency := some ((10 : ℚ) : Lat) }

/-- The endpoint `epD` as it appears in the hybrid ranked list: fresh
multi-retry average written into `latency`. -/
def epDMeasured : Endpoint :=
  { epD with latency := some (measureLatency hEnvUp cfgD.retries epD) }

/-- The endpoint `epA` as it appears in the plain candidate list after
`_check_endpoints` under `pEnvTie`. -/
def epAChecked : Endpoint :=
  { epA with latency := some ((10 : ℚ) : Lat), is_healthy := some true }

/-- Parameter dict the plain manager passes to `psycopg2.connect` for `epA`
with empty `connection_settings`. -/
def cxPlainParams : Dict :=
  [("host", .str "a"), ("port", .int 5432), ("database", .str "db"),
   ("user", .str "u"), ("password", .str "tok"), ("connect_timeout", .int 5),
   ("sslmode", .str "require")]

/-- Parameter dict the hybrid manager passes to `psycopg2.connect` for `epD`
with the default `connection_settings` — no `sslmode` key anywhere. -/
def cxHybridParams : Dict :=
  [("host", .str "d"), ("port", .int 5432), ("database", .str "db"),
   ("user", .str "u"), ("password", .str "tok"), ("connect_timeout", .int 5),
   ("application_name", .str "dsql-hybrid-router"), ("keepalives", .int 1),
   ("keepalives_idle", .int 30), ("keepalives_interval", .int 10),
   ("keepalives_count", .int 3)]

/-!
Helper lemmas about dictionaries.
-/

theorem aget_aset_self {β : Type} (d : List (String × β)) (k : String) (v : β) :
    aget (aset d k v) k = some v := by
  induction d with
  | nil => simp [aset, aget]
  | cons kv rest ih =>
    obtain ⟨k', v'⟩ := kv
    by_cases h : k' = k
    · simp [aset, aget, h]
    · simp [aset, aget, h, ih]

theorem aget_aset_of_ne {β : Type} (d : List (String × β)) {k k' : String} (v : β)
    (h : k' ≠ k) : aget (aset d k v) k' = aget d k' := by
  have hkk : ¬ k = k' := fun hh => h hh.symm
  induction d with
  | nil => simp [aset, aget, hkk]
  | cons kv rest ih =>
    obtain ⟨k0, v0⟩ := kv
    by_cases h0 : k0 = k
    · subst h0
      simp [aset, aget, hkk]
    · simp only [aset, beq_iff_eq, h0, if_false]
      by_cases h1 : k0 = k'
      · simp [aget, h1]
      · simp [aget, h1, ih]

theorem aget_eq_none_of_not_mem {β : Type} (d : List (String × β)) (k : String)
    (h : k ∉ d.map Prod.fst) : aget d k = none := by
  induction d with
  | nil => rfl
  | cons kv rest ih =>
    simp only [List.map_cons, List.mem_cons, not_or] at h
    have h1 : ¬ kv.1 = k := fun hh => h.1 hh.symm
    obtain ⟨k0, v0⟩ := kv
    simp only [aget, beq_iff_eq]
    simp only at h1
    simp [h1, ih h.2]

theorem dmerge_aget_of_none (s d : Dict) (k : String) (h : aget s k = none) :
    aget (dmerge d s) k = aget d k := by
  induction s generalizing d with
  | nil => rfl
  | cons kv rest ih =>
    obtain ⟨k0, v0⟩ := kv
    have h0 : ¬ k0 = k := by
      intro hh
      simp [aget, hh] at h
    simp only [aget, beq_iff_eq, h0, if_false] at h
    show aget (dmerge (aset d k0 v0) rest) k = aget d k
    rw [ih (aset d k0 v0) h, aget_aset_of_ne d v0 (fun hh => h0 hh.symm)]

theorem dmerge_aget_of_some (s d : Dict) (k : String) (v : PVal)
    (hnd : keysNodup s) (h : aget s k = some v) :
    aget (dmerge d s) k = some v := by
  induction s generalizing d with
  | nil => simp [aget] at h
  | cons kv rest ih =>
    obtain ⟨k0, v0⟩ := kv
    simp only [keysNodup, List.map_cons, List.nodup_cons] at hnd
    by_cases h0 : k0 = k
    · subst h0
      simp only [aget, beq_self_eq_true, if_true, Option.some.injEq] at h
      have hrest : aget rest k0 = none :=
        aget_eq_none_of_not_mem rest k0 hnd.1
      show aget (dmerge (aset d k0 v0) rest) k0 = some v
      rw [dmerge_aget_of_none rest (aset d k0 v0) k0 hrest, aget_aset_self, h]
    · simp only [aget, beq_iff_eq, h0, if_false] at h
      exact ih (aset d k0 v0) hnd.2 h

theorem plainParams_preserved (s : Dict) (d : Dict) (k : String) (v : PVal)
    (h : aget d k = some v) :
    aget (s.foldl
      (fun acc kv =>
        if (aget acc kv.1).isSome || kv.1 == "connect_timeout" then acc
        else aset acc kv.1 kv.2) d) k = some v := by
  induction s generalizing d with
  | nil => exact h
  | cons kv rest ih =>
    obtain ⟨k0, v0⟩ := kv
    simp only [List.foldl_cons]
    by_cases hc : (aget d k0).isSome || (k0 == "connect_timeout")
    · simp only [hc, if_true]
      exact ih d h
    · simp only [hc, if_false]
      have h0 : ¬ k0 = k := by
        intro hh
        subst hh
        simp [h] at hc
      exact ih (aset d k0 v0) (by rw [aget_aset_of_ne d v0 (fun hh => h0 hh.symm)]; exact h)

/-!
Helper lemma about the stable sort: the head of the sorted list is the first
element of the input attaining the minimum of the sort relation.
-/

theorem insertionSort_first_min {α : Type} (r : α → α → Prop) [DecidableRel r]
    [IsTotal α r] [IsTrans α r] :
    ∀ (l : List α) (e : α) (t : List α), List.insertionSort r l = e :: t →
      ∃ l1 l2, l = l1 ++ e :: l2 ∧ (∀ x ∈ l, r e x) ∧ ∀ x ∈ l1, ¬ r x e := by
  intro l
  induction l with
  | nil => intro e t h; simp [List.insertionSort] at h
  | cons x xs ih =>
    intro e t h
    rw [List.insertionSort] at h
    rcases h2 : List.insertionSort r xs with _ | ⟨m, t2⟩
    · have hxs : xs = [] := by
        have hp := List.perm_insertionSort r xs
        rw [h2] at hp
        exact hp.symm.eq_nil
      subst hxs
      rw [h2] at h
      simp only [List.orderedInsert] at h
      obtain ⟨he, _⟩ := List.cons.inj h
      refine ⟨[], [], by rw [he]; rfl, ?_, by simp⟩
      intro y hy
      simp only [List.mem_singleton] at hy
      subst hy
      rw [← he]
      exact (total_of r y y).elim id id
    · rw [h2] at h
      obtain ⟨l1, l2, hdec, hmin, hpred⟩ := ih m t2 h2
      by_cases hr : r x m
      · rw [List.orderedInsert, if_pos hr] at h
        obtain ⟨he, _⟩ := List.cons.inj h
        refine ⟨[], xs, by rw [he]; rfl, ?_, by simp⟩
        intro y hy
        rw [← he]
        rcases List.mem_cons.mp hy with hy | hy
        · subst hy
          exact (total_of r y y).elim id id
        · exact IsTrans.trans _ _ _ hr (hmin y hy)
      · rw [List.orderedInsert, if_neg hr] at h
        obtain ⟨he, _⟩ := List.cons.inj h
        refine ⟨x :: l1, l2, by rw [← he, hdec]; rfl, ?_, ?_⟩
        · intro y hy
          rw [← he]
          rcases List.mem_cons.mp hy with hy | hy
          · subst hy
            exact (total_of r y m).resolve_left hr
          · exact hmin y hy
        · intro y hy
          rw [← he]
          rcases List.mem_cons.mp hy with hy | hy
          · subst hy
            exact hr
          · exact hpred y hy

/-!
Helper lemmas about the two connection-attempt loops.
-/

theorem plainTry_head_ok (env : PlainEnv) (settings : Dict) (ct : Int)
    (db u : String) (e : Endpoint) (rest : List Endpoint) (lastE : Option String)
    (token : String) (hm : env.mint e.hostname e.region = .ok token)
    (hc : env.connectRes (plainConnParams settings ct db u e token) = none) :
    plainTry env settings ct db u (e :: rest) lastE =
      (.ok (plainConnParams settings ct db u e token),
       [plainConnParams settings ct db u e token]) := by
  simp [plainTry, hm, hc]

theorem plainTry_ok_of_mem (env : PlainEnv) (settings : Dict) (ct : Int)
    (db u : String) (l : List Endpoint) (e : Endpoint) (he : e ∈ l)
    (hok : plainFailReason env settings ct db u e = none) :
    ∀ lastE, ∃ p, (plainTry env settings ct db u l lastE).1 = .ok p := by
  induction l with
  | nil => cases he
  | cons e0 rest ih =>
    intro lastE
    rcases hm : env.mint e0.hostname e0.region with m | token
    · rcases List.mem_cons.mp he with he0 | he0
      · subst he0
        simp [plainFailReason, hm] at hok
      · simp only [plainTry, hm]
        exact ih he0 (some m)
    · rcases hc : env.connectRes (plainConnParams settings ct db u e0 token) with _ | m
      · exact ⟨plainConnParams settings ct db u e0 token, by simp [plainTry, hm, hc]⟩
      · rcases List.mem_cons.mp he with he0 | he0
        · subst he0
          simp [plainFailReason, hm, hc] at hok
        · simp only [plainTry, hm, hc]
          exact ih he0 (some m)

theorem plainTry_all_fail (env : PlainEnv) (settings : Dict) (ct : Int)
    (db u : String) (l : List Endpoint)
    (hf : ∀ e ∈ l, plainFailReason env settings ct db u e ≠ none) :
    ∀ lastE, (plainTry env settings ct db u l lastE).1 =
      .error (plainFailMsg (lastReason (plainFailReason env settings ct db u) l lastE)) := by
  induction l with
  | nil => intro lastE; rfl
  | cons e0 rest ih =>
    intro lastE
    have hf0 := hf e0 (List.mem_cons_self e0 rest)
    have hft : ∀ e ∈ rest, plainFailReason env settings ct db u e ≠ none :=
      fun e he => hf e (List.mem_cons_of_mem e0 he)
    rcases hm : env.mint e0.hostname e0.region with m | token
    · have hr0 : plainFailReason env settings ct db u e0 = some m := by
        simp [plainFailReason, hm]
      simp only [plainTry, hm, lastReason, hr0, orElseO]
      exact ih hft (some m)
    · rcases hc : env.connectRes (plainConnParams settings ct db u e0 token) with _ | m
      · exact absurd (by simp [plainFailReason, hm, hc]) hf0
      · have hr0 : plainFailReason env settings ct db u e0 = some m := by
          simp [plainFailReason, hm, hc]
        simp only [plainTry, hm, hc, lastReason, hr0, orElseO]
        exact ih hft (some m)

theorem plainTry_attempts_params (env : PlainEnv) (settings : Dict) (ct : Int)
    (db u : String) (l : List Endpoint) :
    ∀ lastE p, p ∈ (plainTry env settings ct db u l lastE).2 →
      ∃ e token, e ∈ l ∧ env.mint e.hostname e.region = .ok token ∧
        p = plainConnParams settings ct db u e token := by
  induction l with
  | nil => intro lastE p hp; simp [plainTry] at hp
  | cons e0 rest ih =>
    intro lastE p hp
    rcases hm : env.mint e0.hostname e0.region with m | token
    · simp only [plainTry, hm] at hp
      obtain ⟨e, token, he, hmt, hpe⟩ := ih (some m) p hp
      exact ⟨e, token, List.mem_cons_of_mem e0 he, hmt, hpe⟩
    · rcases hc : env.connectRes (plainConnParams settings ct db u e0 token) with _ | m
      · simp only [plainTry, hm, hc, List.mem_singleton] at hp
        exact ⟨e0, token, List.mem_cons_self e0 rest, hm, hp⟩
      · simp only [plainTry, hm, hc, List.mem_cons] at hp
        rcases hp with hp | hp
        · exact ⟨e0, token, List.mem_cons_self e0 rest, hm, hp⟩
        · obtain ⟨e, token1, he, hmt, hpe⟩ := ih (some m) p hp
          exact ⟨e, token1, List.mem_cons_of_mem e0 he, hmt, hpe⟩

theorem hybridTry_head_ok (env : HybridEnv) (cfg : HybridCfg) (db u : String)
    (e : Endpoint) (rest : List Endpoint) (token : String)
    (hm : generateAuthToken env cfg.dsql_available e.cluster_id e.region = .ok token)
    (hc : env.connectRes (hybridConnParams cfg.settings db u e token) = none) :
    hybridTry env cfg db u (e :: rest) =
      (.ok (hybridConnParams cfg.settings db u e token),
       [hybridConnParams cfg.settings db u e token]) := by
  simp [hybridTry, hm, hc]

theorem hybridTry_all_fail (env : HybridEnv) (cfg : HybridCfg) (db u : String)
    (l : List Endpoint)
    (hf : ∀ e ∈ l, hybridFailReason env cfg db u e ≠ none) :
    (hybridTry env cfg db u l).1 =
      .error (l.map (fun e =>
        hybridFailMsg e.hostname ((hybridFailReason env cfg db u e).getD ""))) := by
  induction l with
  | nil => rfl
  | cons e0 rest ih =>
    have hf0 := hf e0 (List.mem_cons_self e0 rest)
    have hft : ∀ e ∈ rest, hybridFailReason env cfg db u e ≠ none :=
      fun e he => hf e (List.mem_cons_of_mem e0 he)
    have ihr := ih hft
    rcases hm : generateAuthToken env cfg.dsql_available e0.cluster_id e0.region with m | token
    · have hr0 : hybridFailReason env cfg db u e0 = some m := by
        simp [hybridFailReason, hm]
      simp only [hybridTry, hm, List.map_cons, hr0, Option.getD_some]
      rw [ihr]
    · rcases hc : env.connectRes (hybridConnParams cfg.settings db u e0 token) with _ | m
      · exact absurd (by simp [hybridFailReason, hm, hc]) hf0
      · have hr0 : hybridFailReason env cfg db u e0 = some m := by
          simp [hybridFailReason, hm, hc]
        simp only [hybridTry, hm, hc, List.map_cons, hr0, Option.getD_some]
        rw [ihr]

theorem hybridTry_attempts_params (env : HybridEnv) (cfg : HybridCfg) (db u : String)
    (l : List Endpoint) :
    ∀ p, p ∈ (hybridTry env cfg db u l).2 →
      ∃ e token, e ∈ l ∧
        generateAuthToken env cfg.dsql_available e.cluster_id e.region = .ok token ∧
        p = hybridConnParams cfg.settings db u e token := by
  induction l with
  | nil => intro p hp; simp [hybridTry] at hp
  | cons e0 rest ih =>
    intro p hp
    rcases hm : generateAuthToken env cfg.dsql_available e0.cluster_id e0.region with m | token
    · simp only [hybridTry, hm] at hp
      obtain ⟨e, token, he, hmt, hpe⟩ := ih p hp
      exact ⟨e, token, List.mem_cons_of_mem e0 he, hmt, hpe⟩
    · rcases hc : env.connectRes (hybridConnParams cfg.settings db u e0 token) with _ | m
      · simp only [hybridTry, hm, hc, List.mem_singleton] at hp
        exact ⟨e0, token, List.mem_cons_self e0 rest, hm, hp⟩
      · simp only [hybridTry, hm, hc, List.mem_cons] at hp
        rcases hp with hp | hp
        · exact ⟨e0, token, List.mem_cons_self e0 rest, hm, hp⟩
        · obtain ⟨e, token1, he, hmt, hpe⟩ := ih p hp
          exact ⟨e, token1, List.mem_cons_of_mem e0 he, hmt, hpe⟩

theorem plainConnParams_sslmode (settings : Dict) (ct : Int) (db u : String)
    (e : Endpoint) (token : String) :
    aget (plainConnParams settings ct db u e token) "sslmode" = some (.str "require") :=
  plainParams_preserved settings _ "sslmode" (.str "require") rfl

theorem hybridConnParams_sslmode (settings : Dict) (db u : String)
    (e : Endpoint) (token : String) (hnd : keysNodup settings) :
    aget (hybridConnParams settings db u e token) "sslmode" = aget settings "sslmode" := by
  rcases hs : aget settings "sslmode" with _ | v
  · rw [hybridConnParams, dmerge_aget_of_none settings _ _ hs]
    rfl
  · rw [hybridConnParams]
    exact dmerge_aget_of_some settings _ _ v hnd hs

theorem generateAuthToken_ok (env : HybridEnv) (available : Bool) (e : Endpoint)
    (hmint : ∀ h r, ∃ t, env.mint h r = .ok t) :
    generateAuthToken env available e.cluster_id e.region =
      .ok (tokenOf env available e) := by
  cases available with
  | false => rfl
  | true =>
    obtain ⟨t, ht⟩ := hmint (canonicalHost e.cluster_id e.region) e.region
    simp [generateAuthToken, tokenOf, ht]

theorem plainMint_ok (env : PlainEnv) (e : Endpoint)
    (hmint : ∀ h r, ∃ t, env.mint h r = .ok t) :
    env.mint e.hostname e.region = .ok (plainTokenOf env e) := by
  obtain ⟨t, ht⟩ := hmint e.hostname e.region
  simp [plainTokenOf, ht]

theorem hybridGetConnection_eq_of_healthy (env : HybridEnv) (cfg : HybridCfg)
    (cache : Cache) (now : ℚ) (eps : List Endpoint) (db u : String)
    (hne : getHealthyEndpoints env cfg.ttl now cache eps ≠ []) :
    hybridGetConnection env cfg cache now eps db u =
      { result :=
          match (hybridTry env cfg db u
            (hybridRanked env cfg (getHealthyEndpoints env cfg.ttl now cache eps))).1 with
          | .ok p => .ok p
          | .error errs => .error (.allFailed errs),
        endpoints := (healthFlags env cfg.ttl now cache eps).1.map (fun p =>
          if p.2 then { p.1 with latency := some (measureLatency env cfg.retries p.1) }
          else p.1),
        cache := (healthFlags env cfg.ttl now cache eps).2,
        attempts := (hybridTry env cfg db u
          (hybridRanked env cfg (getHealthyEndpoints env cfg.ttl now cache eps))).2 } := by
  rw [hybridGetConnection]
  rw [getHealthyEndpoints] at hne
  have hempty : (((healthFlags env cfg.ttl now cache eps).1.filter (fun p => p.2)).map
      Prod.fst).isEmpty = false := by
    rcases h : ((healthFlags env cfg.ttl now cache eps).1.filter
        (fun p => p.2)).map Prod.fst with _ | ⟨x, xs⟩
    · exact absurd h hne
    · rw [h]
      rfl
  simp only [hempty, Bool.false_eq_true, if_false]
  rfl

/-!
Claim C7 — ranking order and the missing-priority default.
-/

/-- C7 counterexample: at equal latency, the endpoint with no declared
priority (default 999) sorts BEFORE an endpoint declaring priority 1000, so an
endpoint with no declared priority does not sort after every endpoint that
declares one "regardless of the declared value". -/
theorem C7_counterexample :
    pySorted hybridRel [epP1000, epPNone] = [epPNone, epP1000] ∧
    epP1000.priority = some 1000 ∧ epPNone.priority = none ∧
    (hybridKey epP1000).1 = (hybridKey epPNone).1 := by
  refine ⟨by decide, rfl, rfl, by decide⟩

/-- C7 amended: the hybrid ranking sorts ascending by
`(latency, priority.getD 999)` (a stable sort of the candidate list), so at
equal latency an endpoint with no declared priority sorts after endpoints
declaring a priority at most 999 and before endpoints declaring a priority
above 999; the plain manager's ranking sorts by latency alone and never
consults priority. -/
theorem C7_amended (l : List Endpoint) (e1 e2 : Endpoint) (p : Int)
    (hlat : (hybridKey e1).1 = (hybridKey e2).1)
    (hp1 : e1.priority = some p) (hp2 : e2.priority = none) :
    ((pySorted hybridRel l).Perm l ∧ List.Sorted hybridRel (pySorted hybridRel l)) ∧
    ((pySorted plainRel l).Perm l ∧ List.Sorted plainRel (pySorted plainRel l)) ∧
    (plainRel e1 e2 ∧ plainRel e2 e1) ∧
    (hybridRel e1 e2 ↔ p ≤ 999) ∧ (hybridRel e2 e1 ↔ 999 ≤ p) := by
  have hplain : plainKey e1 = plainKey e2 := hlat
  refine ⟨⟨List.perm_insertionSort hybridRel l, List.sorted_insertionSort hybridRel l⟩,
    ⟨List.perm_insertionSort plainRel l, List.sorted_insertionSort plainRel l⟩,
    ⟨le_of_eq hplain, le_of_eq hplain.symm⟩, ?_, ?_⟩
  · constructor
    · intro h
      rcases h with h | ⟨_, h2⟩
      · exact absurd (hlat ▸ h) (lt_irrefl _)
      · rw [hybridKey, hybridKey] at h2
        simp only [hp1, hp2, Option.getD_some, Option.getD_none] at h2
        exact h2
    · intro hp
      refine Or.inr ⟨hlat, ?_⟩
      rw [hybridKey, hybridKey]
      simp only [hp1, hp2, Option.getD_some, Option.getD_none]
      exact hp
  · constructor
    · intro h
      rcases h with h | ⟨_, h2⟩
      · exact absurd (hlat ▸ h) (lt_irrefl _)
      · rw [hybridKey, hybridKey] at h2
        simp only [hp1, hp2, Option.getD_some, Option.getD_none] at h2
        exact h2
    · intro hp
      refine Or.inr ⟨hlat.symm, ?_⟩
      rw [hybridKey, hybridKey]
      simp only [hp1, hp2, Option.getD_some, Option.getD_none]
      exact hp

/-- C7 amended, witness at a concrete input. -/
theorem C7_amended_witness :
    ((pySorted hybridRel [epP1000, epPNone]).Perm [epP1000, epPNone] ∧
      List.Sorted hybridRel (pySorted hybridRel [epP1000, epPNone])) ∧
    ((pySorted plainRel [epP1000, epPNone]).Perm [epP1000, epPNone] ∧
      List.Sorted plainRel (pySorted plainRel [epP1000, epPNone])) ∧
    (plainRel epP1000 epPNone ∧ plainRel epPNone epP1000) ∧
    (hybridRel epP1000 epPNone ↔ (1000 : Int) ≤ 999) ∧
    (hybridRel epPNone epP1000 ↔ (999 : Int) ≤ 1000) :=
  C7_amended [epP1000, epPNone] epP1000 epPNone 1000 (by decide) rfl rfl

/-!
Claim C2 — degraded fallback when nothing reports healthy.
-/

/-- C2 counterexample: one endpoint whose Route 53 health check reports only
failing observations while its TCP port is open and `psycopg2.connect` would
succeed; the hybrid manager raises `No healthy DSQL endpoints available`
without a single connection attempt instead of degrading to the full endpoint
list. -/
theorem C2_counterexample :
    (hybridGetConnection hEnvR53Down cfgD [] 0 [epH] "db" "u").result =
      .error .noHealthy ∧
    (hybridGetConnection hEnvR53Down cfgD [] 0 [epH] "db" "u").attempts = [] ∧
    hEnvR53Down.direct "h" 5432 = true ∧
    hEnvR53Down.connectRes (hybridConnParams cfgD.settings "db" "u" epH "tok") = none := by
  refine ⟨by decide, by decide, rfl, rfl⟩

/-- C2 amended: when health evaluation reports no endpoint healthy, the plain
manager degrades its candidate set to the full endpoint list and still
succeeds whenever some endpoint's connection attempt succeeds; the hybrid
manager instead fails immediately with `No healthy DSQL endpoints available`
and makes no connection attempt. -/
theorem C2_amended :
    (∀ (env : PlainEnv) (settings : Dict) (ct : Int) (eps : List Endpoint) (db u : String),
      plainHealthy env eps = [] →
      plainTarget env eps = checkEndpoints env eps ∧
      ((∃ e ∈ checkEndpoints env eps, plainFailReason env settings ct db u e = none) →
        ∃ p, (plainGetConnection env settings ct eps db u).result = .ok p)) ∧
    (∀ (env : HybridEnv) (cfg : HybridCfg) (cache : Cache) (now : ℚ)
      (eps : List Endpoint) (db u : String),
      getHealthyEndpoints env cfg.ttl now cache eps = [] →
      (hybridGetConnection env cfg cache now eps db u).result = .error .noHealthy ∧
      (hybridGetConnection env cfg cache now eps db u).attempts = []) := by
  constructor
  · intro env settings ct eps db u hempty
    have htarget : plainTarget env eps = checkEndpoints env eps := by
      rw [plainTarget, hempty]
      rfl
    refine ⟨htarget, ?_⟩
    rintro ⟨e, he, hok⟩
    have := plainTry_ok_of_mem env settings ct db u (checkEndpoints env eps) e he hok none
    rw [plainGetConnection, htarget]
    exact this
  · intro env cfg cache now eps db u hempty
    rw [getHealthyEndpoints] at hempty
    rw [hybridGetConnection]
    simp [hempty]

/-- C2 amended, witness at concrete inputs: the plain manager connects even
though every probe failed, the hybrid manager raises. -/
theorem C2_amended_witness :
    (∃ p, (plainGetConnection pEnvProbeDown [] 5 [epA] "db" "u").result = .ok p) ∧
    (hybridGetConnection hEnvR53Down cfgD [] 60 [epH] "db" "u").result =
      .error .noHealthy :=
  ⟨(C2_amended.1 pEnvProbeDown [] 5 [epA] "db" "u" (by decide)).2 (by decide),
   (C2_amended.2 hEnvR53Down cfgD [] 60 [epH] "db" "u" (by decide)).1⟩

/-!
Claim C4 — TLS on every connection attempt.
-/

/-- C4 counterexample: a hybrid connection attempt with the default
configuration carries no `sslmode` key at all (so `tlsRequired = true` is not
passed), contradicting the claim that every attempt passes
`sslmode = 'require'`. -/
theorem C4_counterexample :
    ((hybridGetConnection hEnvUp cfgD [] 0 [epD] "db" "u").attempts.map
      (fun p => aget p "sslmode")) = [none] ∧
    (hybridGetConnection hEnvUp cfgD [] 0 [epD] "db" "u").attempts.length = 1 := by
  refine ⟨by decide, by decide⟩

/-- C4 amended: every connection attempt of the plain manager passes
`sslmode = 'require'` and configuration cannot override it; a hybrid
connection attempt carries exactly the `sslmode` of `connection_settings`
(absent by default, and whatever value the configuration supplies
otherwise). -/
theorem C4_amended :
    (∀ (env : PlainEnv) (settings : Dict) (ct : Int) (eps : List Endpoint)
      (db u : String) (p : Dict),
      p ∈ (plainGetConnection env settings ct eps db u).attempts →
      aget p "sslmode" = some (.str "require")) ∧
    (∀ (env : HybridEnv) (cfg : HybridCfg) (cache : Cache) (now : ℚ)
      (eps : List Endpoint) (db u : String) (p : Dict),
      keysNodup cfg.settings →
      p ∈ (hybridGetConnection env cfg cache now eps db u).attempts →
      aget p "sslmode" = aget cfg.settings "sslmode") := by
  constructor
  · intro env settings ct eps db u p hp
    rw [plainGetConnection] at hp
    obtain ⟨e, token, _, _, hpe⟩ :=
      plainTry_attempts_params env settings ct db u (plainTarget env eps) none p hp
    rw [hpe]
    exact plainConnParams_sslmode settings ct db u e token
  · intro env cfg cache now eps db u p hnd hp
    rw [hybridGetConnection] at hp
    by_cases hempty :
      (((healthFlags env cfg.ttl now cache eps).1.filter (fun q => q.2)).map Prod.fst).isEmpty
    · simp only [hempty, if_true] at hp
      cases hp
    · simp only [hempty, if_false] at hp
      obtain ⟨e, token, _, _, hpe⟩ := hybridTry_attempts_params env cfg db u _ p hp
      rw [hpe]
      exact hybridConnParams_sslmode cfg.settings db u e token hnd

/-- C4 amended, witness at concrete inputs. -/
theorem C4_amended_witness :
    aget cxPlainParams "sslmode" = some (.str "require") ∧
    aget cxHybridParams "sslmode" = aget cfgD.settings "sslmode" :=
  ⟨C4_amended.1 pEnvTie [] 5 [epA] "db" "u" cxPlainParams (by decide),
   C4_amended.2 hEnvUp cfgD [] 0 [epD] "db" "u" cxHybridParams (by decide) (by decide)⟩

/-!
Claim C5 — caching behaviour of the Route 53 health check.
-/

/-- C5 counterexample: a cache miss where the external call returns an empty
observation list yields unhealthy but writes nothing to the cache, although
the claim requires every returning call (including an empty observation list)
to have its boolean cached. -/
theorem C5_counterexample :
    checkRoute53Health hEnvEmptyObs 60 5 [] "hc-1" = (false, []) ∧
    hEnvEmptyObs.route53 "hc-1" = some [] :=
  ⟨by decide, rfl⟩

/-- C5 amended: on a cache miss, the fresh boolean is cached with the current
timestamp only when the external call returns a non-empty observation list;
an empty observation list yields unhealthy and writes nothing (early return
before the caching line); a raised error yields unhealthy and writes
nothing. -/
theorem C5_amended (env : HybridEnv) (ttl now : ℚ) (cache : Cache) (id : String)
    (hmiss : aget cache id = none ∨
      ∃ r ts, aget cache id = some (r, ts) ∧ ¬ now - ts < ttl) :
    (env.route53 id = none → checkRoute53Health env ttl now cache id = (false, cache)) ∧
    (env.route53 id = some [] → checkRoute53Health env ttl now cache id = (false, cache)) ∧
    (∀ s rest, env.route53 id = some (s :: rest) →
      checkRoute53Health env ttl now cache id =
        (decide (0 < ((s :: rest).filter statusIsSuccess).length),
         aset cache id (decide (0 < ((s :: rest).filter statusIsSuccess).length), now))) := by
  rcases hmiss with hnone | ⟨r, ts, hsome, hstale⟩
  · refine ⟨fun h53 => ?_, fun h53 => ?_, fun s rest h53 => ?_⟩ <;>
      simp [checkRoute53Health, hnone, h53]
  · refine ⟨fun h53 => ?_, fun h53 => ?_, fun s rest h53 => ?_⟩ <;>
      simp [checkRoute53Health, hsome, hstale, h53]

/-- C5 amended, witness: a cache miss with one successful observation is
cached with the current timestamp. -/
theorem C5_amended_witness :
    checkRoute53Health hEnvUp 60 5 [] "hc-1" =
      (decide (0 < ((["Success: HTTP Status Code 200"]).filter statusIsSuccess).length),
       aset ([] : Cache) "hc-1"
         (decide (0 < ((["Success: HTTP Status Code 200"]).filter statusIsSuccess).length),
          5)) :=
  (C5_amended hEnvUp 60 5 [] "hc-1" (Or.inl rfl)).2.2 "Success: HTTP Status Code 200" [] rfl

/-!
Claim C10 — precedence of configured connection settings.
-/

/-- C10: the two managers give opposite precedence to configured connection
settings: a `connection_settings` key overrides the hybrid manager's
router-computed core parameter of the same name, while the plain manager's
router-computed core parameters (host, password, port) survive any
configuration. -/
theorem C10 :
    (∀ (settings : Dict) (db u : String) (e : Endpoint) (token k : String) (v : PVal),
      keysNodup settings → aget settings k = some v →
      aget (hybridConnParams settings db u e token) k = some v) ∧
    (∀ (settings : Dict) (ct : Int) (db u : String) (e : Endpoint) (token : String),
      aget (plainConnParams settings ct db u e token) "host" = some (.str e.hostname) ∧
      aget (plainConnParams settings ct db u e token) "password" = some (.str token) ∧
      aget (plainConnParams settings ct db u e token) "port" = some (.int (portOf e))) := by
  constructor
  · intro settings db u e token k v hnd hk
    rw [hybridConnParams]
    exact dmerge_aget_of_some settings _ k v hnd hk
  · intro settings ct db u e token
    exact ⟨plainParams_preserved settings _ "host" _ rfl,
      plainParams_preserved settings _ "password" _ rfl,
      plainParams_preserved settings _ "port" _ rfl⟩

/-- C10 witness: a configured `host` overrides the hybrid manager's computed
host, while the plain manager keeps its computed host against the same
configuration. -/
theorem C10_witness :
    aget (hybridConnParams [("host", .str "override")] "db" "u" epA "tok") "host" =
      some (.str "override") ∧
    aget (plainConnParams [("host", .str "override")] 5 "db" "u" epA "tok") "host" =
      some (.str epA.hostname) :=
  ⟨C10.1 [("host", .str "override")] "db" "u" epA "tok" "host" (.str "override")
    (by decide) rfl,
   (C10.2 [("host", .str "override")] 5 "db" "u" epA "tok").1⟩

/-!
Claim C8 — contract of the latency measurement.
-/

/-- C8: the multi-retry measurement returns the arithmetic mean of the
successful attempts (a finite value, the `ok = true` case) exactly when at
least one attempt succeeds, and the `float('inf')` sentinel when all attempts
fail; the plain manager's single-probe measurement returns the probe latency
with `True` on success and `(float('inf'), False)` on failure.  Both
measurement functions are total (expected network failures are caught, never
raised). -/
theorem C8 :
    (∀ (env : HybridEnv) (retries : Nat) (e : Endpoint),
      ((∃ i, i < retries ∧ env.attempt e.hostname (portOf e) i ≠ none) ↔
        latTrials env e.hostname (portOf e) retries ≠ []) ∧
      (latTrials env e.hostname (portOf e) retries ≠ [] →
        measureLatency env retries e =
          (((latTrials env e.hostname (portOf e) retries).sum /
            (latTrials env e.hostname (portOf e) retries).length : ℚ) : Lat) ∧
        measureLatency env retries e ≠ ⊤) ∧
      (latTrials env e.hostname (portOf e) retries = [] →
        measureLatency env retries e = ⊤)) ∧
    (∀ (env : PlainEnv) (h : String) (port : Nat),
      (∀ t, env.attempt h port 0 = some t →
        measureEndpoint env h port = (((t : ℚ) : Lat), true)) ∧
      (env.attempt h port 0 = none → measureEndpoint env h port = (⊤, false))) := by
  constructor
  · intro env retries e
    refine ⟨?_, fun hne => ?_, fun hnil => ?_⟩
    · rw [latTrials, Ne, List.filterMap_eq_nil_iff]
      constructor
      · rintro ⟨i, hi, hne⟩ hall
        exact hne (hall i (List.mem_range.mpr hi))
      · intro hnot
        by_contra hno
        push_neg at hno
        exact hnot (fun a ha => hno a (List.mem_range.mp ha))
    · have hemp : (latTrials env e.hostname (portOf e) retries).isEmpty = false := by
        rcases h : latTrials env e.hostname (portOf e) retries with _ | ⟨x, xs⟩
        · exact absurd h hne
        · rfl
      constructor
      · rw [measureLatency]
        simp [hemp]
      · rw [measureLatency]
        simp only [hemp, Bool.false_eq_true, if_false]
        exact WithTop.coe_ne_top
    · rw [measureLatency, hnil]
      rfl
  · intro env h port
    constructor
    · intro t ht
      rw [measureEndpoint, ht]
    · intro h0
      rw [measureEndpoint, h0]

/-- C8 witness at concrete inputs: three successful attempts give the mean and
a finite value; all-failing attempts give the sentinel; the single probe gives
`(latency, True)` on success and `(inf, False)` on failure. -/
theorem C8_witness :
    (measureLatency hEnvUp 3 epD =
      (((latTrials hEnvUp epD.hostname (portOf epD) 3).sum /
        (latTrials hEnvUp epD.hostname (portOf epD) 3).length : ℚ) : Lat) ∧
      measureLatency hEnvUp 3 epD ≠ ⊤) ∧
    measureLatency hEnvPart 3 epH = ⊤ ∧
    measureEndpoint pEnvTie "a" 5432 = (((10 : ℚ) : Lat), true) ∧
    measureEndpoint pEnvProbeDown "a" 5432 = (⊤, false) :=
  ⟨(C8.1 hEnvUp 3 epD).2.1 (by decide),
   (C8.1 hEnvPart 3 epH).2.2 (by decide),
   (C8.2 pEnvTie "a" 5432).1 10 rfl,
   (C8.2 pEnvProbeDown "a" 5432).2 rfl⟩

/-!
Claim C3 — shape of the aggregate error when everything fails.
-/

/-- C3 counterexample: two endpoints are attempted and both are refused with
distinct reasons, yet the plain manager's aggregate error carries only the
last endpoint's reason (`refused-b`) — not one failure reason per attempted
endpoint. -/
theorem C3_counterexample :
    (plainGetConnection pEnvRefuse [] 5 [epA, epB] "db" "u").result =
      .error "Failed to connect to any endpoint: refused-b" ∧
    (plainGetConnection pEnvRefuse [] 5 [epA, epB] "db" "u").attempts.length = 2 := by
  refine ⟨by decide, by decide⟩

/-- C3 amended: when every candidate's attempt fails, the hybrid manager's
aggregate error carries exactly one message per ranked endpoint, in ranked
order, each naming its endpoint and its cause; the plain manager's aggregate
error instead retains only the last attempted endpoint's failure reason. -/
theorem C3_amended :
    (∀ (env : HybridEnv) (cfg : HybridCfg) (cache : Cache) (now : ℚ)
      (eps : List Endpoint) (db u : String),
      getHealthyEndpoints env cfg.ttl now cache eps ≠ [] →
      (∀ e ∈ hybridRanked env cfg (getHealthyEndpoints env cfg.ttl now cache eps),
        hybridFailReason env cfg db u e ≠ none) →
      (hybridGetConnection env cfg cache now eps db u).result =
        .error (.allFailed
          ((hybridRanked env cfg (getHealthyEndpoints env cfg.ttl now cache eps)).map
            (fun e => hybridFailMsg e.hostname
              ((hybridFailReason env cfg db u e).getD "")))) ∧
      (hybridRanked env cfg (getHealthyEndpoints env cfg.ttl now cache eps)).length =
        (getHealthyEndpoints env cfg.ttl now cache eps).length) ∧
    (∀ (env : PlainEnv) (settings : Dict) (ct : Int) (eps : List Endpoint) (db u : String),
      (∀ e ∈ plainTarget env eps, plainFailReason env settings ct db u e ≠ none) →
      (plainGetConnection env settings ct eps db u).result =
        .error (plainFailMsg
          (lastReason (plainFailReason env settings ct db u) (plainTarget env eps) none))) := by
  constructor
  · intro env cfg cache now eps db u hne hf
    constructor
    · rw [hybridGetConnection_eq_of_healthy env cfg cache now eps db u hne]
      show (match (hybridTry env cfg db u
          (hybridRanked env cfg (getHealthyEndpoints env cfg.ttl now cache eps))).1 with
        | .ok p => (.ok p : Except HybridErr Dict)
        | .error errs => .error (.allFailed errs)) = _
      rw [hybridTry_all_fail env cfg db u _ hf]
    · rw [hybridRanked, pySorted]
      rw [(List.perm_insertionSort hybridRel _).length_eq]
      rw [hybridMeasured, List.length_map]
  · intro env settings ct eps db u hf
    show (plainTry env settings ct db u (plainTarget env eps) none).1 = _
    exact plainTry_all_fail env settings ct db u (plainTarget env eps) hf none

/-- C3 amended, witness at concrete inputs. -/
theorem C3_amended_witness :
    ((hybridGetConnection hEnvRefuse cfgD [] 0 [epD] "db" "u").result =
      .error (.allFailed
        ((hybridRanked hEnvRefuse cfgD (getHealthyEndpoints hEnvRefuse cfgD.ttl 0 [] [epD])).map
          (fun e => hybridFailMsg e.hostname
            ((hybridFailReason hEnvRefuse cfgD "db" "u" e).getD "")))) ∧
      (hybridRanked hEnvRefuse cfgD (getHealthyEndpoints hEnvRefuse cfgD.ttl 0 [] [epD])).length =
        (getHealthyEndpoints hEnvRefuse cfgD.ttl 0 [] [epD]).length) ∧
    (plainGetConnection pEnvRefuse [] 5 [epA, epB] "db" "u").result =
      .error (plainFailMsg (lastReason (plainFailReason pEnvRefuse [] 5 "db" "u")
        (plainTarget pEnvRefuse [epA, epB]) none)) :=
  ⟨C3_amended.1 hEnvRefuse cfgD [] 0 [epD] "db" "u" (by decide) (by decide),
   C3_amended.2 pEnvRefuse [] 5 [epA, epB] "db" "u" (by decide)⟩

/-!
Claim C6 — which measurement mode feeds the ranking.
-/

/-- C6 counterexample: on a network where host `a` answers its first probe in
10 ms but repeat probes in 1000 ms (multi-retry average 670 ms) and host `b`
answers every probe in 20 ms, the plain manager still connects to `a`: its
ranking uses the single-probe latency, not the multi-retry averaged
measurement the claim requires. -/
theorem C6_counterexample :
    ((plainGetConnection pEnvSkew [] 5 [epA, epB] "db" "u").result.toOption.bind
      (fun p => aget p "host")) = some (.str "a") ∧
    measureLatency hEnvSkew 3 epA = ((670 : ℚ) : Lat) ∧
    measureLatency hEnvSkew 3 epB = ((20 : ℚ) : Lat) ∧
    ((20 : ℚ) : Lat) < ((670 : ℚ) : Lat) := by
  refine ⟨by decide, ?_, ?_, by decide⟩
  · have h1 : latTrials hEnvSkew epA.hostname (portOf epA) 3 = [10, 1000, 1000] := by decide
    rw [measureLatency, h1]
    norm_num
  · have h2 : latTrials hEnvSkew epB.hostname (portOf epB) 3 = [20, 20, 20] := by decide
    rw [measureLatency, h2]
    norm_num

/-- C6 amended: every endpoint in the hybrid manager's ranked candidate list
carries the multi-retry averaged latency as its ranking key (the averaging
mode, never the single probe), while every endpoint in the plain manager's
candidate list carries its single-probe latency (the plain manager has no
averaging mode at all); within one ranking pass neither manager mixes the two
modes. -/
theorem C6_amended :
    (∀ (env : HybridEnv) (cfg : HybridCfg) (healthy : List Endpoint) (e' : Endpoint),
      e' ∈ hybridRanked env cfg healthy →
      e'.latency = some (measureLatency env cfg.retries e')) ∧
    (∀ (env : PlainEnv) (eps : List Endpoint) (e' : Endpoint),
      e' ∈ plainTarget env eps →
      e'.latency = some (measureEndpoint env e'.hostname (portOf e')).1) := by
  constructor
  · intro env cfg healthy e' he
    rw [hybridRanked, pySorted] at he
    have he2 : e' ∈ hybridMeasured env cfg healthy := (List.mem_insertionSort hybridRel).mp he
    rw [hybridMeasured] at he2
    obtain ⟨e, _, hee⟩ := List.mem_map.mp he2
    rw [← hee]
    rfl
  · intro env eps e' he
    have hmem : e' ∈ checkEndpoints env eps := by
      rw [plainTarget] at he
      by_cases hempty : (plainHealthy env eps).isEmpty
      · rw [if_pos hempty] at he
        exact he
      · rw [if_neg hempty] at he
        rw [pySorted] at he
        have he2 : e' ∈ plainHealthy env eps := (List.mem_insertionSort plainRel).mp he
        rw [plainHealthy] at he2
        exact (List.mem_filter.mp he2).1
    rw [checkEndpoints] at hmem
    obtain ⟨e, _, hee⟩ := List.mem_map.mp hmem
    rw [← hee]
    rfl

/-- C6 amended, witness at concrete inputs. -/
theorem C6_amended_witness :
    epDMeasured.latency = some (measureLatency hEnvUp cfgD.retries epDMeasured) ∧
    epAChecked.latency =
      some (measureEndpoint pEnvTie epAChecked.hostname (portOf epAChecked)).1 :=
  ⟨C6_amended.1 hEnvUp cfgD [epD] epDMeasured (List.mem_singleton.mpr rfl),
   C6_amended.2 pEnvTie [epA] epAChecked (by decide)⟩

/-!
Claim C9 — which endpoint fields get fresh values on each call.
-/

theorem healthFlags_fst (env : HybridEnv) (ttl now : ℚ) :
    ∀ (eps : List Endpoint) (cache : Cache),
      (healthFlags env ttl now cache eps).1.map Prod.fst = eps := by
  intro eps
  induction eps with
  | nil => intro cache; rfl
  | cons e rest ih =>
    intro cache
    simp only [healthFlags, List.map_cons]
    rw [ih]

/-- C9 counterexample: a hybrid `get_connection` call leaves an unhealthy
endpoint completely untouched — its stale latency of 42 survives even though
a fresh measurement would give the `float('inf')` sentinel, and no
`is_healthy` key is ever written — contradicting the claim that every call
writes fresh values into both fields of every endpoint. -/
theorem C9_counterexample :
    (hybridGetConnection hEnvPart cfgD [] 0 [epD, epStale] "db" "u").endpoints.get? 1 =
      some epStale ∧
    epStale.latency = some ((42 : ℚ) : Lat) ∧
    epStale.is_healthy = none ∧
    measureLatency hEnvPart cfgD.retries epStale = ⊤ := by
  refine ⟨by decide, rfl, rfl, by decide⟩

/-- C9 amended: the plain manager writes a fresh latency and health flag into
every endpoint of the active set on every call, leaving every other field
unchanged; the hybrid manager never writes `is_healthy` at all and refreshes
`latency` only on the endpoints whose health flag was true — an endpoint whose
flag was false keeps all its (possibly stale) fields. -/
theorem C9_amended :
    (∀ (env : PlainEnv) (settings : Dict) (ct : Int) (eps : List Endpoint) (db u : String)
      (i : Nat) (e : Endpoint), eps.get? i = some e →
      ∃ e', (plainGetConnection env settings ct eps db u).endpoints.get? i = some e' ∧
        e'.latency = some (measureEndpoint env e.hostname (portOf e)).1 ∧
        e'.is_healthy = some (measureEndpoint env e.hostname (portOf e)).2 ∧
        e'.hostname = e.hostname ∧ e'.port = e.port ∧ e'.region = e.region ∧
        e'.cluster_id = e.cluster_id ∧ e'.priority = e.priority ∧
        e'.health_check_id = e.health_check_id) ∧
    (∀ (env : HybridEnv) (cfg : HybridCfg) (cache : Cache) (now : ℚ)
      (eps : List Endpoint) (db u : String) (i : Nat) (e : Endpoint) (b : Bool),
      (healthFlags env cfg.ttl now cache eps).1.get? i = some (e, b) →
      ∃ e', (hybridGetConnection env cfg cache now eps db u).endpoints.get? i = some e' ∧
        e'.is_healthy = e.is_healthy ∧ e'.hostname = e.hostname ∧
        (e' = e ∨ e' = { e with latency := some (measureLatency env cfg.retries e) }) ∧
        (b = false → e' = e)) := by
  constructor
  · intro env settings ct eps db u i e he
    refine
      ⟨{ e with
          latency := some (measureEndpoint env e.hostname (portOf e)).1,
          is_healthy := some (measureEndpoint env e.hostname (portOf e)).2 },
        ?_, rfl, rfl, rfl, rfl, rfl, rfl, rfl, rfl⟩
    show (checkEndpoints env eps).get? i = _
    rw [checkEndpoints, List.get?_map, he]
    rfl
  · intro env cfg cache now eps db u i e b hi
    rw [hybridGetConnection]
    by_cases hempty :
      (((healthFlags env cfg.ttl now cache eps).1.filter (fun q => q.2)).map Prod.fst).isEmpty
    · simp only [hempty, if_true]
      refine ⟨e, ?_, rfl, rfl, Or.inl rfl, fun _ => rfl⟩
      show eps.get? i = some e
      have hfst := healthFlags_fst env cfg.ttl now eps cache
      calc eps.get? i
          = ((healthFlags env cfg.ttl now cache eps).1.map Prod.fst).get? i := by rw [hfst]
        _ = some e := by rw [List.get?_map, hi]; rfl
    · simp only [hempty, if_false]
      refine ⟨if b then { e with latency := some (measureLatency env cfg.retries e) } else e,
        ?_, ?_, ?_, ?_, ?_⟩
      · show ((healthFlags env cfg.ttl now cache eps).1.map _).get? i = _
        rw [List.get?_map, hi]
        rfl
      · cases b <;> rfl
      · cases b <;> rfl
      · cases b
        · exact Or.inl rfl
        · exact Or.inr rfl
      · intro hb
        rw [hb]
        rfl

/-!
Claim C1 — which endpoint Connect selects.
-/

/-- C1 counterexample: two reachable endpoints with equal measured latency
where `b` declares the lower priority; the plain manager still connects to
`a`, the endpoint earlier in input order, because its ranking never consults
priority — the claimed priority tie-break does not happen. -/
theorem C1_counterexample :
    ((plainGetConnection pEnvTie [] 5 [epA, epB] "db" "u").result.toOption.bind
      (fun p => aget p "host")) = some (.str "a") ∧
    measureEndpoint pEnvTie "a" 5432 = (((10 : ℚ) : Lat), true) ∧
    measureEndpoint pEnvTie "b" 5432 = (((10 : ℚ) : Lat), true) ∧
    epA.priority = some 2 ∧ epB.priority = some 1 := by
  refine ⟨by decide, by decide, by decide, rfl, rfl⟩

/-- C1 amended: when minting and every connection attempt succeed and some
endpoint is healthy, the hybrid manager returns a connection to the first
candidate (in input order) minimising `(latency, priority.getD 999)`, while
the plain manager returns a connection to the first healthy endpoint (in
input order) minimising latency alone — priority is never consulted by the
plain manager. -/
theorem C1_amended :
    (∀ (env : HybridEnv) (cfg : HybridCfg) (cache : Cache) (now : ℚ)
      (eps : List Endpoint) (db u : String),
      (∀ h r, ∃ t, env.mint h r = .ok t) →
      (∀ p, env.connectRes p = none) →
      getHealthyEndpoints env cfg.ttl now cache eps ≠ [] →
      ∃ e l1 l2,
        hybridMeasured env cfg (getHealthyEndpoints env cfg.ttl now cache eps) =
          l1 ++ e :: l2 ∧
        (hybridGetConnection env cfg cache now eps db u).result =
          .ok (hybridConnParams cfg.settings db u e (tokenOf env cfg.dsql_available e)) ∧
        (∀ x ∈ hybridMeasured env cfg (getHealthyEndpoints env cfg.ttl now cache eps),
          hybridRel e x) ∧
        (∀ x ∈ l1, ¬ hybridRel x e)) ∧
    (∀ (env : PlainEnv) (settings : Dict) (ct : Int) (eps : List Endpoint) (db u : String),
      (∀ h r, ∃ t, env.mint h r = .ok t) →
      (∀ p, env.connectRes p = none) →
      plainHealthy env eps ≠ [] →
      ∃ e l1 l2,
        plainHealthy env eps = l1 ++ e :: l2 ∧
        (plainGetConnection env settings ct eps db u).result =
          .ok (plainConnParams settings ct db u e (plainTokenOf env e)) ∧
        (∀ x ∈ plainHealthy env eps, plainRel e x) ∧
        (∀ x ∈ l1, ¬ plainRel x e)) := by
  constructor
  · intro env cfg cache now eps db u hmint hconn hne
    have hmne : hybridMeasured env cfg (getHealthyEndpoints env cfg.ttl now cache eps) ≠ [] := by
      rw [hybridMeasured]
      intro hmap
      exact hne (List.map_eq_nil.mp hmap)
    rcases hsort : hybridRanked env cfg (getHealthyEndpoints env cfg.ttl now cache eps)
      with _ | ⟨e, t⟩
    · exfalso
      have hp := List.perm_insertionSort hybridRel
        (hybridMeasured env cfg (getHealthyEndpoints env cfg.ttl now cache eps))
      rw [hybridRanked, pySorted] at hsort
      rw [hsort] at hp
      exact hmne hp.symm.eq_nil
    · have hsort2 : List.insertionSort hybridRel
          (hybridMeasured env cfg (getHealthyEndpoints env cfg.ttl now cache eps)) =
            e :: t := hsort
      obtain ⟨l1, l2, hdec, hmin, hpred⟩ :=
        insertionSort_first_min hybridRel _ e t hsort2
      refine ⟨e, l1, l2, hdec, ?_, hmin, hpred⟩
      rw [hybridGetConnection_eq_of_healthy env cfg cache now eps db u hne]
      show (match (hybridTry env cfg db u
          (hybridRanked env cfg (getHealthyEndpoints env cfg.ttl now cache eps))).1 with
        | .ok p => (.ok p : Except HybridErr Dict)
        | .error errs => .error (.allFailed errs)) = _
      rw [hsort, hybridTry_head_ok env cfg db u e t (tokenOf env cfg.dsql_available e)
        (generateAuthToken_ok env cfg.dsql_available e hmint) (hconn _)]
  · intro env settings ct eps db u hmint hconn hne
    have hne' : (plainHealthy env eps).isEmpty = false := by
      rcases h : plainHealthy env eps with _ | ⟨x, xs⟩
      · exact absurd h hne
      · rfl
    have hmne : plainHealthy env eps ≠ [] := hne
    rcases hsort : pySorted plainRel (plainHealthy env eps) with _ | ⟨e, t⟩
    · exfalso
      have hp := List.perm_insertionSort plainRel (plainHealthy env eps)
      rw [pySorted] at hsort
      rw [hsort] at hp
      exact hmne hp.symm.eq_nil
    · have hsort2 : List.insertionSort plainRel (plainHealthy env eps) = e :: t := hsort
      obtain ⟨l1, l2, hdec, hmin, hpred⟩ :=
        insertionSort_first_min plainRel _ e t hsort2
      refine ⟨e, l1, l2, hdec, ?_, hmin, hpred⟩
      have htgt : plainTarget env eps = pySorted plainRel (plainHealthy env eps) := by
        rw [plainTarget]
        simp only [hne', Bool.false_eq_true, if_false]
      show (plainTry env settings ct db u (plainTarget env eps) none).1 = _
      rw [htgt, hsort, plainTry_head_ok env settings ct db u e t none (plainTokenOf env e)
        (plainMint_ok env e hmint) (hconn _)]

/-- C1 amended, witness at concrete inputs. -/
theorem C1_amended_witness :
    (∃ e l1 l2,
      hybridMeasured hEnvUp cfgD (getHealthyEndpoints hEnvUp cfgD.ttl 0 [] [epD]) =
        l1 ++ e :: l2 ∧
      (hybridGetConnection hEnvUp cfgD [] 0 [epD] "db" "u").result =
        .ok (hybridConnParams cfgD.settings "db" "u" e (tokenOf hEnvUp cfgD.dsql_available e)) ∧
      (∀ x ∈ hybridMeasured hEnvUp cfgD (getHealthyEndpoints hEnvUp cfgD.ttl 0 [] [epD]),
        hybridRel e x) ∧
      (∀ x ∈ l1, ¬ hybridRel x e)) ∧
    (∃ e l1 l2,
      plainHealthy pEnvTie [epA, epB] = l1 ++ e :: l2 ∧
      (plainGetConnection pEnvTie [] 5 [epA, epB] "db" "u").result =
        .ok (plainConnParams [] 5 "db" "u" e (plainTokenOf pEnvTie e)) ∧
      (∀ x ∈ plainHealthy pEnvTie [epA, epB], plainRel e x) ∧
      (∀ x ∈ l1, ¬ plainRel x e)) :=
  ⟨C1_amended.1 hEnvUp cfgD [] 0 [epD] "db" "u" (fun _ _ => ⟨"tok", rfl⟩)
    (fun _ => rfl) (by decide),
   C1_amended.2 pEnvTie [] 5 [epA, epB] "db" "u" (fun _ _ => ⟨"tok", rfl⟩)
    (fun _ => rfl) (by decide)⟩

/-- C9 amended, witness at concrete inputs. -/
theorem C9_amended_witness :
    (∃ e', (plainGetConnection pEnvTie [] 5 [epA] "db" "u").endpoints.get? 0 = some e' ∧
      e'.latency = some (measureEndpoint pEnvTie epA.hostname (portOf epA)).1 ∧
      e'.is_healthy = some (measureEndpoint pEnvTie epA.hostname (portOf epA)).2 ∧
      e'.hostname = epA.hostname ∧ e'.port = epA.port ∧ e'.region = epA.region ∧
      e'.cluster_id = epA.cluster_id ∧ e'.priority = epA.priority ∧
      e'.health_check_id = epA.health_check_id) ∧
    (∃ e', (hybridGetConnection hEnvPart cfgD [] 0 [epD, epStale] "db" "u").endpoints.get? 1 =
        some e' ∧
      e'.is_healthy = epStale.is_healthy ∧ e'.hostname = epStale.hostname ∧
      (e' = epStale ∨
        e' = { epStale with latency := some (measureLatency hEnvPart cfgD.retries epStale) }) ∧
      (false = false → e' = epStale)) :=
  ⟨C9_amended.1 pEnvTie [] 5 [epA] "db" "u" 0 epA rfl,
   C9_amended.2 hEnvPart cfgD [] 0 [epD, epStale] "db" "u" 1 epStale false (by decide)⟩

end DSQL

